import Mathlib

/-!
Verification of the download-completion monitor of the wx_metube plugin
(src/wx_metube/wx_metube.py), shallowly embedded in Lean.

Timestamps are modelled as natural numbers (seconds).  The Python code
computes elapsed minutes as a float division by 60; here the elapsed
minutes are a rational number, which agrees with the float computation at
every tier boundary.  The cacheout `Cache` objects (download_cache with
ttl 86400, processed_downloads_cache with ttl 604800) are modelled as
functions from keys to optional entries carrying an absolute expiry time;
a `get` at time `now` only returns values whose expiry lies in the future.
The WeChat message sender is modelled as a boolean-valued function
(message, recipient) -> success, following the collaborator interface
(notify returns success/failure only).  `urllib.parse.quote` is a stdlib
collaborator and is modelled as an abstract string function in the
environment.
-/

namespace WxMetube

/-- One tracked download job, mirroring the `DownloadTask` dataclass. -/
structure DownloadTask where
  url : String
  title : String
  user_id : String
  submit_time : Nat
  download_id : String
  status : String := "submitted"
  filename : Option String := none
  download_url : Option String := none
  last_check_time : Option Nat := none
  check_count : Nat := 0
  next_check_interval : Int := 10
deriving Repr, DecidableEq

/-- An entry of a cacheout cache: stored value plus absolute expiry time. -/
structure CacheEntry (α : Type) where
  value : α
  expires : Nat
deriving Repr, DecidableEq

/-- The records stored in `processed_downloads_cache`: ordinary-task
records (written on a successful completion notification) and orphan
records (written at the end of orphan handling). -/
inductive ProcessedRecord where
  | taskRecord (processed_time : Nat) (title : String) (filename : Option String)
      (user_id : String)
  | orphanRecord (processed_time : Nat) (title : String) (filename : Option String)
      (download_url : String) (notification_sent : Bool)
deriving Repr, DecidableEq

/-- Get from a TTL cache at time `now`: expired entries are invisible. -/
def cacheGet {α : Type} (c : String → Option (CacheEntry α)) (now : Nat) (k : String) :
    Option α :=
  match c k with
  | some e => if now < e.expires then some e.value else none
  | none => none

/-- Set into a TTL cache, with the given absolute expiry time. -/
def cacheSet {α : Type} (c : String → Option (CacheEntry α)) (k : String) (v : α)
    (expires : Nat) : String → Option (CacheEntry α) :=
  fun k' => if k' = k then some ⟨v, expires⟩ else c k'

/-- Association-list lookup (the model of Python dict indexing). -/
def alookup {α : Type} : List (String × α) → String → Option α
  | [], _ => none
  | (k, v) :: rest, key => if k = key then some v else alookup rest key

/-- Deletion from an association list (the model of `del d[k]`). -/
def aremove {α : Type} : List (String × α) → String → List (String × α)
  | [], _ => []
  | (a, b) :: rest, key =>
    if a = key then aremove rest key else (a, b) :: aremove rest key

/-- Insertion into an association list (the model of `d[k] = v`). -/
def aset {α : Type} (l : List (String × α)) (key : String) (v : α) :
    List (String × α) :=
  (key, v) :: aremove l key

/-- The mutable state of the monitor: `self.active_tasks` together with the
two module-level caches. -/
structure MonitorState where
  active_tasks : List (String × DownloadTask)
  download_cache : String → Option (CacheEntry DownloadTask)
  processed_cache : String → Option (CacheEntry ProcessedRecord)

/-- The state at module initialisation: empty dict, empty caches. -/
def initialState : MonitorState :=
  { active_tasks := []
    download_cache := fun _ => none
    processed_cache := fun _ => none }

/-- Configuration values and collaborator functions consumed by the
monitor.  `send_text_message msg user` returns the success flag of the
notification attempt; `urlquote` models `urllib.parse.quote`. -/
structure Env where
  metube_url : String
  notify_orphan_downloads : Bool
  orphan_download_user : String
  default_user : String
  urlquote : String → String
  send_text_message : String → String → Bool

/-- One element of the snapshot `done` list (a MeTube history entry). -/
structure DoneItem where
  url : Option String
  status : String
  title : Option String
  filename : Option String
deriving Repr, DecidableEq

/-- The status snapshot fetched from MeTube: the urls of the queue
entries, and the `done` list. -/
structure Snapshot where
  queue : List String
  done : List DoneItem
deriving Repr, DecidableEq

/-- A dispatched notification attempt, labelled with the path that emitted
it, the url of the finished entry being processed, the recipient and the
reported success of the send. -/
inductive Attempt where
  | ordinary (url recipient : String) (success : Bool)
  | orphanPrimary (url recipient : String) (success : Bool)
  | orphanFallback (url recipient : String) (success : Bool)
deriving Repr, DecidableEq

/-- `DownloadMonitor.calculate_next_check_interval`, as a function of the
elapsed minutes since submission.  The value -1 encodes "expired, no
further polling". -/
def calculate_next_check_interval (elapsed_minutes : ℚ) : Int :=
  if elapsed_minutes < 3 then 10
  else if elapsed_minutes < 10 then 60
  else if elapsed_minutes < 50 then 300
  else if elapsed_minutes < 120 then 600
  else if elapsed_minutes < 4320 then 86400
  else -1

/-- The tier computation of `calculate_next_check_interval` with the
division by 60 folded into the comparisons (elapsed_seconds / 60 < m iff
elapsed_seconds < 60 * m, exactly, since 60 > 0): this integer form is
used inside the scan step so that concrete runs evaluate in the kernel.
`calculate_next_check_interval_div60` below proves it agrees with the
minutes-based function on every input. -/
def next_interval_of_seconds (elapsed_seconds : Int) : Int :=
  if elapsed_seconds < 180 then 10
  else if elapsed_seconds < 600 then 60
  else if elapsed_seconds < 3000 then 300
  else if elapsed_seconds < 7200 then 600
  else if elapsed_seconds < 259200 then 86400
  else -1

/-- The fresh task constructed by `DownloadMonitor.add_active_task`. -/
def newDownloadTask (now : Nat) (url user_id title : String) : DownloadTask :=
  { url := url
    title := title
    user_id := user_id
    submit_time := now
    download_id := url
    status := "submitted"
    filename := none
    download_url := none
    last_check_time := some now
    check_count := 0
    next_check_interval := 10 }

/-- `DownloadMonitor.add_active_task`: unconditionally stores a fresh task
under `url` in `active_tasks` and in `download_cache` (ttl 86400). -/
def add_active_task (st : MonitorState) (now : Nat) (url user_id title : String) :
    MonitorState :=
  let download_task := newDownloadTask now url user_id title
  { st with
    active_tasks := aset st.active_tasks url download_task
    download_cache := cacheSet st.download_cache url download_task (now + 86400) }

/-- The body of the loop in `DownloadMonitor._check_active_tasks` once a
task is due: bump `last_check_time` and `check_count`, recompute the
interval; `none` means the task is deleted (expired, or absent from the
MeTube queue). -/
def check_due (now : Nat) (queue : List String) (url : String) (task : DownloadTask) :
    Option DownloadTask :=
  let task1 := { task with last_check_time := some now, check_count := task.check_count + 1 }
  let next_interval := next_interval_of_seconds ((now : Int) - (task.submit_time : Int))
  if next_interval = -1 then none
  else
    let task2 := { task1 with next_check_interval := next_interval }
    if queue.contains url then some task2 else none

/-- One iteration of the loop in `DownloadMonitor._check_active_tasks`:
a task whose interval has not yet elapsed is skipped untouched. -/
def check_one_active (now : Nat) (queue : List String) (url : String)
    (task : DownloadTask) : Option DownloadTask :=
  match task.last_check_time with
  | some lct =>
    if (now : Int) - (lct : Int) < task.next_check_interval then some task
    else check_due now queue url task
  | none => check_due now queue url task

/-- `DownloadMonitor._check_active_tasks`: iterate over `active_tasks`,
keeping the updated tasks and dropping the removed ones. -/
def check_active_tasks (now : Nat) (queue : List String)
    (tasks : List (String × DownloadTask)) : List (String × DownloadTask) :=
  tasks.filterMap (fun p => (check_one_active now queue p.1 p.2).map (fun t => (p.1, t)))

/-- The download link built from the MeTube base url and the (quoted)
filename, as in `_process_completed_download` and `_handle_orphan_download`. -/
def build_download_url (env : Env) (filename : Option String) : String :=
  match filename with
  | some f => env.metube_url ++ "/download/" ++ env.urlquote f
  | none => env.metube_url ++ "/download/"

/-- The completion message sent to the owner of a matched task. -/
def completionText (title : String) (filename : Option String) (download_url : String) :
    String :=
  "🎉 视频下载完成！\n\n📹 标题：" ++ title ++ "\n📁 文件：" ++ filename.getD "未知" ++
    "\n🔗 下载链接：" ++ download_url ++ "\n\n点击链接即可下载文件"

/-- The message built for an orphan download. -/
def orphanText (title : String) (filename : Option String) (download_url : String) :
    String :=
  "🎉 发现已完成下载！\n\n📹 标题：" ++ title ++ "\n📁 文件：" ++ filename.getD "未知" ++
    "\n🔗 下载链接：" ++ download_url ++
    "\n\n注意：此下载未通过企业微信提交，系统自动检测到完成状态。"

/-- `DownloadMonitor._handle_orphan_download`: skip if an orphan record is
already cached; otherwise attempt the configured orphan recipient, then the
default-channel fallback, and always write the orphan record (ttl 604800). -/
def handle_orphan_download (env : Env) (now : Nat) (st : MonitorState)
    (item : DoneItem) : MonitorState × List Attempt :=
  let url := item.url.getD ""
  let title := item.title.getD "未知标题"
  let filename := item.filename
  let orphan_cache_key := "orphan_" ++ url
  if (cacheGet st.processed_cache now orphan_cache_key).isSome then (st, [])
  else
    let download_url := build_download_url env filename
    let completion_message := orphanText title filename download_url
    let step1 : Bool × List Attempt :=
      if env.notify_orphan_downloads && !(env.orphan_download_user = "") then
        let ok := env.send_text_message completion_message env.orphan_download_user
        (ok, [Attempt.orphanPrimary url env.orphan_download_user ok])
      else (false, [])
    let step2 : Bool × List Attempt :=
      if step1.1 then (true, [])
      else
        let full_message := "🎉 下载完成通知\n\n" ++ completion_message
        if !(env.default_user = "") then
          let ok := env.send_text_message full_message env.default_user
          (ok, [Attempt.orphanFallback url env.default_user ok])
        else (false, [])
    let record := ProcessedRecord.orphanRecord now title filename download_url step2.1
    ({ st with
        processed_cache := cacheSet st.processed_cache orphan_cache_key record (now + 604800) },
     step1.2 ++ step2.2)

/-- The tail of `DownloadMonitor._process_completed_download` once a task
record has been found (in `active_tasks` or in `download_cache`): skip if
already completed, otherwise send the notification; only on success mark
the task completed, write it back to `download_cache` and write the
ordinary dedup record.  The third component records whether the orphan
handler was invoked (here: never). -/
def finish_task (env : Env) (now : Nat) (st : MonitorState) (url title : String)
    (filename : Option String) (task : DownloadTask) :
    MonitorState × List Attempt × Bool :=
  if task.status = "completed" then (st, [], false)
  else
    let download_url := build_download_url env filename
    let success := env.send_text_message (completionText title filename download_url)
      task.user_id
    if success then
      let task2 := { task with
        status := "completed", filename := filename, download_url := some download_url }
      let st2 := { st with
        download_cache := cacheSet st.download_cache url task2 (now + 86400) }
      let record := ProcessedRecord.taskRecord now title filename task.user_id
      let st3 := { st2 with
        processed_cache :=
          cacheSet st2.processed_cache ("processed_" ++ url) record (now + 604800) }
      (st3, [Attempt.ordinary url task.user_id true], false)
    else (st, [Attempt.ordinary url task.user_id false], false)

/-- `DownloadMonitor._process_completed_download`: look the url up in
`active_tasks` (removing it there on a hit), else in `download_cache`;
with no task record at all, delegate to the orphan handler. -/
def process_completed_download (env : Env) (now : Nat) (st : MonitorState)
    (item : DoneItem) : MonitorState × List Attempt × Bool :=
  let url := item.url.getD ""
  let title := item.title.getD "未知标题"
  let filename := item.filename
  match alookup st.active_tasks url with
  | some task =>
    let st1 := { st with active_tasks := aremove st.active_tasks url }
    finish_task env now st1 url title filename task
  | none =>
    match cacheGet st.download_cache now url with
    | some task => finish_task env now st url title filename task
    | none =>
      let r := handle_orphan_download env now st item
      (r.1, r.2, true)

/-- One iteration of the loop in
`DownloadMonitor._process_completed_downloads`: entries that are not
finished, have no url, or already have an ordinary dedup record are
skipped. -/
def proc_step (env : Env) (now : Nat) (acc : MonitorState × List Attempt)
    (item : DoneItem) : MonitorState × List Attempt :=
  if item.status ≠ "finished" then acc
  else
    match item.url with
    | none => acc
    | some url =>
      if url = "" then acc
      else if (cacheGet acc.1.processed_cache now ("processed_" ++ url)).isSome then acc
      else
        let r := process_completed_download env now acc.1 item
        (r.1, acc.2 ++ r.2.1)

/-- `DownloadMonitor._process_completed_downloads`. -/
def process_completed_downloads (env : Env) (now : Nat) (st : MonitorState)
    (completed : List DoneItem) : MonitorState × List Attempt :=
  completed.foldl (proc_step env now) (st, [])

/-- `DownloadMonitor.check_downloads`, one scan tick: when MeTube is not
reachable nothing happens; otherwise run `_check_active_tasks` on the
queue and then `_process_completed_downloads` on the done list. -/
def check_downloads (env : Env) (now : Nat) (connected : Bool) (snap : Snapshot)
    (st : MonitorState) : MonitorState × List Attempt :=
  if !connected then (st, [])
  else
    let st1 := { st with active_tasks := check_active_tasks now snap.queue st.active_tasks }
    process_completed_downloads env now st1 snap.done

/-- One scheduled scan tick: its wall-clock time and the snapshot MeTube
reported. -/
structure Tick where
  now : Nat
  snap : Snapshot
deriving Repr, DecidableEq

/-- A run of consecutive (reachable) scan ticks, accumulating the
dispatched notification attempts. -/
def runTicks (env : Env) (st : MonitorState) : List Tick → MonitorState × List Attempt
  | [] => (st, [])
  | t :: ts =>
    let r := check_downloads env t.now true t.snap st
    let rest := runTicks env r.1 ts
    (rest.1, r.2 ++ rest.2)

/-! ### Observation predicates over dispatched attempts -/

/-- The url of the finished entry an attempt was emitted for. -/
def attemptUrl : Attempt → String
  | .ordinary u _ _ => u
  | .orphanPrimary u _ _ => u
  | .orphanFallback u _ _ => u

/-- Is this attempt an ordinary-task notification attempt? -/
def isOrdinary : Attempt → Bool
  | .ordinary _ _ _ => true
  | _ => false

/-- Is this an ordinary-task attempt for the key `k`? -/
def isOrdinaryFor (k : String) : Attempt → Bool
  | .ordinary u _ _ => u == k
  | _ => false

/-- Is this a successful ordinary-task attempt for the key `k`? -/
def isOrdinarySuccessFor (k : String) : Attempt → Bool
  | .ordinary u _ s => u == k && s
  | _ => false

/-- No ordinary-task attempt for `k` occurs in the list. -/
def noOrdinaryFor (k : String) (l : List Attempt) : Bool :=
  l.all (fun a => !(isOrdinaryFor k a))

/-- Some successful ordinary-task attempt for `k` occurs in the list. -/
def hasOrdinarySuccessFor (k : String) (l : List Attempt) : Bool :=
  l.any (isOrdinarySuccessFor k)

/-- After the first successful ordinary-task attempt for `k`, no further
ordinary-task attempt for `k` (successful or failed) occurs. -/
def atMostOnceFor (k : String) : List Attempt → Bool
  | [] => true
  | a :: rest => if isOrdinarySuccessFor k a then noOrdinaryFor k rest else atMostOnceFor k rest

/-- The due test of `_check_active_tasks`: a task is evaluated when it has
never been checked or its interval has elapsed. -/
def dueAt (now : Nat) (task : DownloadTask) : Bool :=
  match task.last_check_time with
  | none => true
  | some lct => !((now : Int) - (lct : Int) < task.next_check_interval)

/-- The key `k` can no longer produce an ordinary-task notification: it is
absent from the active map, and any download-cache entry for it is already
marked completed.  This is the state invariant established by a successful
ordinary notification. -/
def SafeState (k : String) (st : MonitorState) : Prop :=
  alookup st.active_tasks k = none ∧
  ∀ e, st.download_cache k = some e → e.value.status = "completed"

/-! ### Concrete fixtures for counterexamples and witnesses -/

/-- An environment whose message sends always fail. -/
def envF : Env :=
  { metube_url := "http://m:8081"
    notify_orphan_downloads := true
    orphan_download_user := "op"
    default_user := "du"
    urlquote := fun s => s
    send_text_message := fun _ _ => false }

/-- An environment whose message sends always succeed. -/
def envT : Env := { envF with send_text_message := fun _ _ => true }

/-- A monitor holding one task for url u1, owned by alice (registered at 0). -/
def stA : MonitorState := add_active_task initialState 0 "u1" "alice" "t1"

/-- A monitor holding one task for url u2, owned by bob (registered at 0). -/
def stB : MonitorState := add_active_task initialState 0 "u2" "bob" "t2"

/-- A monitor holding one task for url v2, owned by bob (registered at 0). -/
def stC : MonitorState := add_active_task initialState 0 "v2" "bob" "t"

/-- A monitor holding one task for url v1, owned by alice (registered at 0). -/
def stD : MonitorState := add_active_task initialState 0 "v1" "alice" "t"

/-- A finished history entry for url u2. -/
def itemB : DoneItem :=
  { url := some "u2", status := "finished", title := some "T2", filename := some "b.mp4" }

/-- A finished history entry for url v1. -/
def itemD : DoneItem :=
  { url := some "v1", status := "finished", title := some "T", filename := some "f.mp4" }

/-- A finished history entry for an unregistered url v9. -/
def itemO : DoneItem :=
  { url := some "v9", status := "finished", title := some "T9", filename := some "o.mp4" }

/-- Scan tick at t=15 reporting v1 finished and an empty queue. -/
def tickD1 : Tick := { now := 15, snap := { queue := [], done := [itemD] } }

/-- Scan tick at t=20 reporting v1 finished again. -/
def tickD2 : Tick := { now := 20, snap := { queue := [], done := [itemD] } }

/-- A monitor whose active map is empty but whose 24h download cache still
holds a task for url u3 owned by erin (written at registration time 0). -/
def stE : MonitorState :=
  { active_tasks := []
    download_cache :=
      cacheSet initialState.download_cache "u3" (newDownloadTask 0 "u3" "erin" "t3") 86400
    processed_cache := fun _ => none }

/-- A finished history entry for url u3. -/
def itemE : DoneItem :=
  { url := some "u3", status := "finished", title := some "T3", filename := none }

/-- A task for url v3 submitted at 0 and last checked at 0. -/
def taskV : DownloadTask := newDownloadTask 0 "v3" "carol" "t"

/-- A task for url w submitted at 0 and last checked at 0. -/
def taskW : DownloadTask := newDownloadTask 0 "w" "dave" "t"

/-! ### Basic lemmas -/

/-- The integer-seconds tier function agrees with the minutes-based
`calculate_next_check_interval` at elapsed_minutes = s / 60. -/
theorem calculate_next_check_interval_div60 (s : Int) :
    calculate_next_check_interval ((s : ℚ) / 60) = next_interval_of_seconds s := by
  have h60 : (0 : ℚ) < 60 := by norm_num
  have conv : ∀ (m : ℚ) (t : Int), 60 * m = (t : ℚ) →
      (((s : ℚ) / 60 < m) ↔ s < t) := by
    intro m t ht
    rw [div_lt_iff₀ h60, mul_comm, ht, Int.cast_lt]
  unfold calculate_next_check_interval next_interval_of_seconds
  simp only [conv 3 180 (by norm_num), conv 10 600 (by norm_num),
    conv 50 3000 (by norm_num), conv 120 7200 (by norm_num),
    conv 4320 259200 (by norm_num)]

theorem cacheGet_cacheSet_self {α : Type} (c : String → Option (CacheEntry α))
    (now : Nat) (k : String) (v : α) (exp : Nat) :
    cacheGet (cacheSet c k v exp) now k = if now < exp then some v else none := by
  simp [cacheGet, cacheSet]

theorem cacheGet_cacheSet_ne {α : Type} (c : String → Option (CacheEntry α))
    (now : Nat) {k k' : String} (v : α) (exp : Nat) (h : k' ≠ k) :
    cacheGet (cacheSet c k v exp) now k' = cacheGet c now k' := by
  simp [cacheGet, cacheSet, h]

theorem alookup_aset_self {α : Type} (l : List (String × α)) (k : String) (v : α) :
    alookup (aset l k v) k = some v := by
  simp [aset, alookup]

theorem alookup_aremove_self {α : Type} (l : List (String × α)) (k : String) :
    alookup (aremove l k) k = none := by
  induction l with
  | nil => rfl
  | cons hd tl ih =>
    obtain ⟨a, b⟩ := hd
    rw [aremove]
    by_cases hak : a = k
    · rw [if_pos hak]; exact ih
    · rw [if_neg hak, alookup, if_neg hak]; exact ih

theorem alookup_aremove_ne {α : Type} (l : List (String × α)) {k k' : String}
    (h : k' ≠ k) : alookup (aremove l k) k' = alookup l k' := by
  induction l with
  | nil => rfl
  | cons hd tl ih =>
    obtain ⟨a, b⟩ := hd
    rw [aremove]
    by_cases hak : a = k
    · rw [if_pos hak, alookup, if_neg (fun hh : a = k' => h (hh.symm.trans hak))]
      exact ih
    · rw [if_neg hak, alookup, alookup]
      by_cases hak' : a = k'
      · rw [if_pos hak', if_pos hak']
      · rw [if_neg hak', if_neg hak']
        exact ih

theorem alookup_none_of_not_mem_keys {α : Type} {l : List (String × α)} {k : String}
    (h : k ∉ l.map Prod.fst) : alookup l k = none := by
  induction l with
  | nil => rfl
  | cons hd tl ih =>
    obtain ⟨a, b⟩ := hd
    simp only [List.map, List.mem_cons] at h
    push_neg at h
    rw [alookup, if_neg (fun hh => h.1 hh.symm)]
    exact ih h.2

theorem alookup_check_active_tasks_none {now : Nat} {queue : List String}
    {tasks : List (String × DownloadTask)} {k : String}
    (h : alookup tasks k = none) :
    alookup (check_active_tasks now queue tasks) k = none := by
  induction tasks with
  | nil => rfl
  | cons hd tl ih =>
    obtain ⟨a, b⟩ := hd
    rw [alookup] at h
    by_cases hak : a = k
    · simp [hak] at h
    · rw [if_neg hak] at h
      rw [check_active_tasks, List.filterMap]
      cases check_one_active now queue a b with
      | none => exact ih h
      | some t => rw [Option.map, alookup, if_neg hak]; exact ih h

theorem orphan_key_ne_processed_key (u v : String) :
    ("orphan_" ++ u : String) ≠ "processed_" ++ v := by
  intro h
  have h2 := congrArg String.data h
  simp only [String.data_append] at h2
  simp at h2

theorem check_one_active_not_due (now : Nat) (queue : List String) (url : String)
    (task : DownloadTask) (h : dueAt now task = false) :
    check_one_active now queue url task = some task := by
  cases hl : task.last_check_time with
  | none => rw [dueAt, hl] at h; simp at h
  | some lct =>
    rw [dueAt, hl] at h
    simp at h
    simp only [check_one_active, hl]
    rw [if_pos h]

theorem check_one_active_due_not_mem (now : Nat) (queue : List String) (url : String)
    (task : DownloadTask) (hdue : dueAt now task = true)
    (hq : queue.contains url = false) :
    check_one_active now queue url task = none := by
  have hnm : url ∉ queue := by simpa using hq
  have hcd : check_due now queue url task = none := by
    rw [check_due]
    split
    · rfl
    · simp [hnm]
  cases hl : task.last_check_time with
  | none => simp only [check_one_active, hl]; exact hcd
  | some lct =>
    rw [dueAt, hl] at hdue
    simp only [Bool.not_eq_true', decide_eq_false_iff_not] at hdue
    simp only [check_one_active, hl]
    rw [if_neg hdue]
    exact hcd

theorem alookup_check_active_tasks_not_due {now : Nat} {queue : List String}
    {tasks : List (String × DownloadTask)} {k : String} {task : DownloadTask}
    (hfind : alookup tasks k = some task) (hdue : dueAt now task = false) :
    alookup (check_active_tasks now queue tasks) k = some task := by
  induction tasks with
  | nil => simp [alookup] at hfind
  | cons hd tl ih =>
    obtain ⟨a, b⟩ := hd
    rw [alookup] at hfind
    rw [check_active_tasks, List.filterMap]
    by_cases hak : a = k
    · rw [if_pos hak] at hfind
      obtain rfl : b = task := Option.some.inj hfind
      rw [check_one_active_not_due _ _ _ _ hdue]
      rw [Option.map, alookup, if_pos hak]
    · rw [if_neg hak] at hfind
      cases check_one_active now queue a b with
      | none => exact ih hfind
      | some t => rw [Option.map, alookup, if_neg hak]; exact ih hfind

theorem alookup_check_active_tasks_due_removed {now : Nat} {queue : List String}
    {tasks : List (String × DownloadTask)} {k : String} {task : DownloadTask}
    (hnd : (tasks.map Prod.fst).Nodup) (hfind : alookup tasks k = some task)
    (hdue : dueAt now task = true) (hq : queue.contains k = false) :
    alookup (check_active_tasks now queue tasks) k = none := by
  induction tasks with
  | nil => simp [alookup] at hfind
  | cons hd tl ih =>
    obtain ⟨a, b⟩ := hd
    rw [List.map_cons, List.nodup_cons] at hnd
    rw [alookup] at hfind
    rw [check_active_tasks, List.filterMap]
    by_cases hak : a = k
    · rw [if_pos hak] at hfind
      obtain rfl : b = task := Option.some.inj hfind
      subst hak
      rw [check_one_active_due_not_mem _ _ _ _ hdue hq]
      exact alookup_check_active_tasks_none (alookup_none_of_not_mem_keys hnd.1)
    · rw [if_neg hak] at hfind
      cases check_one_active now queue a b with
      | none => exact ih hnd.2 hfind
      | some t => rw [Option.map, alookup, if_neg hak]; exact ih hnd.2 hfind

/-! ### The claims -/

/-- Claim C5: the tiered interval calculator is total on elapsed minutes
x ≥ 0 and returns exactly one of six outcomes, with inclusive-low /
exclusive-high boundaries at 3, 10, 50, 120 and 4320 minutes; the value
-1 encodes the expired outcome. -/
theorem claim_c5_tier_function (x : ℚ) (hx : 0 ≤ x) :
    (calculate_next_check_interval x = 10 ↔ x < 3) ∧
    (calculate_next_check_interval x = 60 ↔ 3 ≤ x ∧ x < 10) ∧
    (calculate_next_check_interval x = 300 ↔ 10 ≤ x ∧ x < 50) ∧
    (calculate_next_check_interval x = 600 ↔ 50 ≤ x ∧ x < 120) ∧
    (calculate_next_check_interval x = 86400 ↔ 120 ≤ x ∧ x < 4320) ∧
    (calculate_next_check_interval x = -1 ↔ 4320 ≤ x) := by
  unfold calculate_next_check_interval
  split_ifs with h1 h2 h3 h4 h5 <;>
    refine ⟨?_, ?_, ?_, ?_, ?_, ?_⟩ <;>
    constructor <;>
    intro h <;>
    first
      | rfl
      | linarith
      | exact absurd h (by decide)
      | (constructor <;> linarith)
      | (exfalso; obtain ⟨ha, hb⟩ := h; linarith)

/-- Witness for C5 at the boundary x = 3. -/
theorem claim_c5_witness :
    (0 : ℚ) ≤ 3 ∧
    ((calculate_next_check_interval 3 = 10 ↔ (3 : ℚ) < 3) ∧
     (calculate_next_check_interval 3 = 60 ↔ (3 : ℚ) ≤ 3 ∧ (3 : ℚ) < 10) ∧
     (calculate_next_check_interval 3 = 300 ↔ (10 : ℚ) ≤ 3 ∧ (3 : ℚ) < 50) ∧
     (calculate_next_check_interval 3 = 600 ↔ (50 : ℚ) ≤ 3 ∧ (3 : ℚ) < 120) ∧
     (calculate_next_check_interval 3 = 86400 ↔ (120 : ℚ) ≤ 3 ∧ (3 : ℚ) < 4320) ∧
     (calculate_next_check_interval 3 = -1 ↔ (4320 : ℚ) ≤ 3)) :=
  ⟨by norm_num, claim_c5_tier_function 3 (by norm_num)⟩

/-- Counterexample to claim C4: registering a key that is already present
is not a no-op; the existing task (owned by alice) is overwritten by a
fresh task owned by the new submitter bob. -/
theorem claim_c4_counterexample :
    (alookup (add_active_task stA 5 "u1" "bob" "t2").active_tasks "u1").map
        DownloadTask.user_id = some "bob" ∧
    (alookup stA.active_tasks "u1").map DownloadTask.user_id = some "alice" := by
  constructor <;> rfl

/-- Claim C4 as amended: `add_active_task` unconditionally stores a fresh
task (last submission wins), with status submitted, check_count 0,
next_check_interval 10 and last_check_time set to now; the same task is
written to the 24h download cache. -/
theorem claim_c4_register_overwrites (st : MonitorState) (now : Nat)
    (url user_id title : String) :
    alookup (add_active_task st now url user_id title).active_tasks url =
      some (newDownloadTask now url user_id title) ∧
    (add_active_task st now url user_id title).download_cache url =
      some ⟨newDownloadTask now url user_id title, now + 86400⟩ ∧
    (newDownloadTask now url user_id title).status = "submitted" ∧
    (newDownloadTask now url user_id title).check_count = 0 ∧
    (newDownloadTask now url user_id title).next_check_interval = 10 ∧
    (newDownloadTask now url user_id title).last_check_time = some now := by
  refine ⟨?_, ?_, rfl, rfl, rfl, rfl⟩
  · simp [add_active_task, alookup_aset_self]
  · simp [add_active_task, cacheSet]

/-- Counterexample to claim C3: a tracked task that is due and whose key
is absent from the queue snapshot is removed by `_check_active_tasks`,
not left untouched (here at t = 15, far below the 72h expiry). -/
theorem claim_c3_counterexample :
    dueAt 15 taskV = true ∧ (15 : Nat) < 259200 ∧
    alookup (check_active_tasks 15 [] [("v3", taskV)]) "v3" = none := by
  refine ⟨by decide, by decide, by decide⟩

/-- Claim C3 as amended: during the scan over active tasks, a tracked task
that is not yet due is left untouched, but a due task whose key is absent
from the queue list is removed from the active map; the scan step touches
neither the 24h download cache nor the dedup ledger, so a removed key
stays resolvable through its cached record. -/
theorem claim_c3_queue_absent (now : Nat) (queue : List String)
    (tasks : List (String × DownloadTask)) (k : String) (task : DownloadTask) :
    (alookup tasks k = some task → dueAt now task = false →
      alookup (check_active_tasks now queue tasks) k = some task) ∧
    ((tasks.map Prod.fst).Nodup → alookup tasks k = some task →
      dueAt now task = true → queue.contains k = false →
      alookup (check_active_tasks now queue tasks) k = none) ∧
    (∀ st : MonitorState,
      ({ st with active_tasks := check_active_tasks now queue st.active_tasks } :
          MonitorState).download_cache = st.download_cache ∧
      ({ st with active_tasks := check_active_tasks now queue st.active_tasks } :
          MonitorState).processed_cache = st.processed_cache) :=
  ⟨fun h1 h2 => alookup_check_active_tasks_not_due h1 h2,
   fun hnd h1 h2 h3 => alookup_check_active_tasks_due_removed hnd h1 h2 h3,
   fun _ => ⟨rfl, rfl⟩⟩

/-- Witness for the amended C3: a not-yet-due task is kept; a due task
absent from the queue is removed; the scan step leaves the download cache
of a concrete monitor unchanged. -/
theorem claim_c3_witness :
    alookup (check_active_tasks 5 ["w"] [("w", taskW)]) "w" = some taskW ∧
    alookup (check_active_tasks 15 [] [("v3", taskV)]) "v3" = none ∧
    ({ stC with active_tasks := check_active_tasks 15 [] stC.active_tasks } :
        MonitorState).download_cache = stC.download_cache := by
  refine ⟨?_, ?_, ?_⟩
  · exact (claim_c3_queue_absent 5 ["w"] [("w", taskW)] "w" taskW).1
      (by decide) (by decide)
  · exact (claim_c3_queue_absent 15 [] [("v3", taskV)] "v3" taskV).2.1
      (by decide) (by decide) (by decide) (by decide)
  · exact ((claim_c3_queue_absent 15 [] stC.active_tasks "v2" taskV).2.2 stC).1

/-! ### Unfolding lemmas for the completion matcher -/

theorem process_completed_download_active {env : Env} {now : Nat} {st : MonitorState}
    {item : DoneItem} {url : String} {task : DownloadTask}
    (hurl : item.url = some url) (hfound : alookup st.active_tasks url = some task) :
    process_completed_download env now st item =
      finish_task env now { st with active_tasks := aremove st.active_tasks url } url
        (item.title.getD "未知标题") item.filename task := by
  rw [process_completed_download]
  simp only [hurl, Option.getD_some, hfound]

theorem process_completed_download_cached {env : Env} {now : Nat} {st : MonitorState}
    {item : DoneItem} {url : String} {task : DownloadTask}
    (hurl : item.url = some url) (hactive : alookup st.active_tasks url = none)
    (hcache : cacheGet st.download_cache now url = some task) :
    process_completed_download env now st item =
      finish_task env now st url (item.title.getD "未知标题") item.filename task := by
  rw [process_completed_download]
  simp only [hurl, Option.getD_some, hactive, hcache]

theorem process_completed_download_orphan {env : Env} {now : Nat} {st : MonitorState}
    {item : DoneItem} {url : String}
    (hurl : item.url = some url) (hactive : alookup st.active_tasks url = none)
    (hcache : cacheGet st.download_cache now url = none) :
    process_completed_download env now st item =
      ((handle_orphan_download env now st item).1,
       (handle_orphan_download env now st item).2, true) := by
  rw [process_completed_download]
  simp only [hurl, Option.getD_some, hactive, hcache]

theorem finish_task_completed {env : Env} {now : Nat} {st : MonitorState}
    {url title : String} {filename : Option String} {task : DownloadTask}
    (h : task.status = "completed") :
    finish_task env now st url title filename task = (st, [], false) := by
  rw [finish_task, if_pos h]

theorem finish_task_not_completed_attempts {env : Env} {now : Nat} {st : MonitorState}
    {url title : String} {filename : Option String} {task : DownloadTask}
    (h : ¬task.status = "completed") :
    (finish_task env now st url title filename task).2.1 =
      [Attempt.ordinary url task.user_id
        (env.send_text_message (completionText title filename
          (build_download_url env filename)) task.user_id)] := by
  rw [finish_task, if_neg h]
  cases hs : env.send_text_message (completionText title filename
      (build_download_url env filename)) task.user_id <;>
    simp [hs]

theorem finish_task_processed_success {env : Env} {now : Nat} {st : MonitorState}
    {url title : String} {filename : Option String} {task : DownloadTask}
    (h : ¬task.status = "completed")
    (hs : env.send_text_message (completionText title filename
      (build_download_url env filename)) task.user_id = true) :
    cacheGet (finish_task env now st url title filename task).1.processed_cache now
        ("processed_" ++ url) =
      some (ProcessedRecord.taskRecord now title filename task.user_id) := by
  rw [finish_task, if_neg h]
  simp only [hs, if_true]
  rw [cacheGet_cacheSet_self, if_pos (by omega)]

theorem finish_task_processed_failure {env : Env} {now : Nat} {st : MonitorState}
    {url title : String} {filename : Option String} {task : DownloadTask}
    (hs : env.send_text_message (completionText title filename
      (build_download_url env filename)) task.user_id = false) :
    (finish_task env now st url title filename task).1.processed_cache =
      st.processed_cache := by
  rw [finish_task]
  split
  · rfl
  · simp [hs]

theorem finish_task_active_unchanged {env : Env} {now : Nat} {st : MonitorState}
    {url title : String} {filename : Option String} {task : DownloadTask} :
    (finish_task env now st url title filename task).1.active_tasks =
      st.active_tasks := by
  rw [finish_task]
  split
  · rfl
  · cases hs : env.send_text_message (completionText title filename
        (build_download_url env filename)) task.user_id <;> simp [hs]

theorem finish_task_not_orphan {env : Env} {now : Nat} {st : MonitorState}
    {url title : String} {filename : Option String} {task : DownloadTask} :
    (finish_task env now st url title filename task).2.2 = false := by
  rw [finish_task]
  split
  · rfl
  · cases hs : env.send_text_message (completionText title filename
        (build_download_url env filename)) task.user_id <;> simp [hs]

theorem finish_task_orphan_read_unchanged {env : Env} {now now2 : Nat}
    {st : MonitorState} {url title : String} {filename : Option String}
    {task : DownloadTask} (u : String) :
    cacheGet (finish_task env now st url title filename task).1.processed_cache now2
        ("orphan_" ++ u) =
      cacheGet st.processed_cache now2 ("orphan_" ++ u) := by
  rw [finish_task]
  split
  · rfl
  · have hne := orphan_key_ne_processed_key u url
    cases hs : env.send_text_message (completionText title filename
        (build_download_url env filename)) task.user_id <;>
      simp [hs, cacheGet, cacheSet, hne]

/-! ### Unfolding lemmas for the orphan handler -/

theorem handle_orphan_download_skip {env : Env} {now : Nat} {st : MonitorState}
    {item : DoneItem}
    (h : (cacheGet st.processed_cache now ("orphan_" ++ item.url.getD "")).isSome = true) :
    handle_orphan_download env now st item = (st, []) := by
  rw [handle_orphan_download, if_pos h]

theorem handle_orphan_download_writes {env : Env} {now : Nat} {st : MonitorState}
    {item : DoneItem}
    (h : cacheGet st.processed_cache now ("orphan_" ++ item.url.getD "") = none) :
    ∃ b : Bool,
      (handle_orphan_download env now st item).1.processed_cache =
        cacheSet st.processed_cache ("orphan_" ++ item.url.getD "")
          (ProcessedRecord.orphanRecord now (item.title.getD "未知标题") item.filename
            (build_download_url env item.filename) b) (now + 604800) := by
  rw [handle_orphan_download, if_neg (by simp [h])]
  exact ⟨_, rfl⟩

theorem handle_orphan_download_active_unchanged {env : Env} {now : Nat}
    {st : MonitorState} {item : DoneItem} :
    (handle_orphan_download env now st item).1.active_tasks = st.active_tasks := by
  rw [handle_orphan_download]
  split <;> rfl

theorem handle_orphan_download_dc_unchanged {env : Env} {now : Nat}
    {st : MonitorState} {item : DoneItem} :
    (handle_orphan_download env now st item).1.download_cache = st.download_cache := by
  rw [handle_orphan_download]
  split <;> rfl

theorem handle_orphan_download_processed_read_unchanged {env : Env} {now now2 : Nat}
    {st : MonitorState} {item : DoneItem} (u : String) :
    cacheGet (handle_orphan_download env now st item).1.processed_cache now2
        ("processed_" ++ u) =
      cacheGet st.processed_cache now2 ("processed_" ++ u) := by
  rw [handle_orphan_download]
  split
  · rfl
  · exact cacheGet_cacheSet_ne _ _ _ _
      (Ne.symm (orphan_key_ne_processed_key (item.url.getD "") u))

theorem handle_orphan_download_attempts {env : Env} {now : Nat} {st : MonitorState}
    {item : DoneItem} :
    ∀ a ∈ (handle_orphan_download env now st item).2,
      attemptUrl a = item.url.getD "" ∧ isOrdinary a = false := by
  intro a ha
  rw [handle_orphan_download] at ha
  split at ha
  · simp at ha
  · simp only [List.mem_append] at ha
    rcases ha with h | h <;>
    · repeat' split at h
      all_goals simp at h
      all_goals (subst h; exact ⟨rfl, rfl⟩)

/-- Counterexample to claim C2: a matched finished entry whose
notification send fails leaves no ordinary DedupRecord at all (the failed
attempt was dispatched, yet the processed cache is untouched), so the key
is retried on the next tick instead of being suppressed. -/
theorem claim_c2_counterexample :
    (process_completed_download envF 15 stB itemB).2.1 =
      [Attempt.ordinary "u2" "bob" false] ∧
    cacheGet (process_completed_download envF 15 stB itemB).1.processed_cache 15
      ("processed_" ++ "u2") = none := by
  constructor <;> rfl

theorem finish_task_state_failure {env : Env} {now : Nat} {st : MonitorState}
    {url title : String} {filename : Option String} {task : DownloadTask}
    (hs : env.send_text_message (completionText title filename
      (build_download_url env filename)) task.user_id = false) :
    (finish_task env now st url title filename task).1 = st := by
  rw [finish_task]
  split
  · rfl
  · simp [hs]

theorem proc_step_retry {env2 : Env} {now2 : Nat} {stx : MonitorState}
    {acc : List Attempt} {item2 : DoneItem} {url : String} {task2 : DownloadTask}
    (h2f : item2.status = "finished") (h2u : item2.url = some url) (hne : ¬url = "")
    (hnorec : cacheGet stx.processed_cache now2 ("processed_" ++ url) = none)
    (hactive : alookup stx.active_tasks url = none)
    (hcache2 : cacheGet stx.download_cache now2 url = some task2)
    (hst2 : ¬task2.status = "completed") :
    (proc_step env2 now2 (stx, acc) item2).2 =
      acc ++ [Attempt.ordinary url task2.user_id
        (env2.send_text_message (completionText (item2.title.getD "未知标题")
          item2.filename (build_download_url env2 item2.filename)) task2.user_id)] := by
  rw [proc_step, if_neg (by simp [h2f])]
  simp only [h2u]
  rw [if_neg hne, if_neg (by simp [hnorec])]
  show acc ++ (process_completed_download env2 now2 stx item2).2.1 = _
  rw [process_completed_download_cached h2u hactive hcache2,
    finish_task_not_completed_attempts hst2]

/-- Claim C2 as amended: on a registry (or cached-record) match the
ordinary DedupRecord is written only when the notification attempt
reports success; on failure both caches and the dedup ledger are left
unchanged, so a later tick reporting the key finished (while the record
is absent and the cached task is live) dispatches another ordinary
attempt. -/
theorem claim_c2_dedup_on_success_only (env : Env) (now : Nat) (st : MonitorState)
    (item : DoneItem) (task : DownloadTask) (url : String)
    (hurl : item.url = some url)
    (hfound : alookup st.active_tasks url = some task ∨
      (alookup st.active_tasks url = none ∧
        cacheGet st.download_cache now url = some task))
    (hst : ¬task.status = "completed") :
    (env.send_text_message (completionText (item.title.getD "未知标题") item.filename
        (build_download_url env item.filename)) task.user_id = true →
      cacheGet (process_completed_download env now st item).1.processed_cache now
          ("processed_" ++ url) =
        some (ProcessedRecord.taskRecord now (item.title.getD "未知标题") item.filename
          task.user_id)) ∧
    (env.send_text_message (completionText (item.title.getD "未知标题") item.filename
        (build_download_url env item.filename)) task.user_id = false →
      (process_completed_download env now st item).1.processed_cache =
        st.processed_cache ∧
      (process_completed_download env now st item).1.download_cache =
        st.download_cache ∧
      alookup (process_completed_download env now st item).1.active_tasks url = none ∧
      (∀ (env2 : Env) (now2 : Nat) (acc : List Attempt) (item2 : DoneItem)
        (task2 : DownloadTask),
        item2.status = "finished" → item2.url = some url → ¬url = "" →
        cacheGet st.processed_cache now2 ("processed_" ++ url) = none →
        cacheGet st.download_cache now2 url = some task2 →
        ¬task2.status = "completed" →
        (proc_step env2 now2 ((process_completed_download env now st item).1, acc)
            item2).2 =
          acc ++ [Attempt.ordinary url task2.user_id
            (env2.send_text_message (completionText (item2.title.getD "未知标题")
              item2.filename (build_download_url env2 item2.filename))
              task2.user_id)])) := by
  rcases hfound with hf | ⟨ha, hc⟩
  · rw [process_completed_download_active hurl hf]
    refine ⟨fun hs => finish_task_processed_success hst hs, fun hs => ?_⟩
    have hstate := @finish_task_state_failure env now
      { st with active_tasks := aremove st.active_tasks url } url
      (item.title.getD "未知标题") item.filename task hs
    rw [hstate]
    exact ⟨rfl, rfl, alookup_aremove_self _ _,
      fun env2 now2 acc item2 task2 h2f h2u hne hnorec hcache2 hst2 =>
        proc_step_retry h2f h2u hne hnorec (alookup_aremove_self _ _) hcache2 hst2⟩
  · rw [process_completed_download_cached hurl ha hc]
    refine ⟨fun hs => finish_task_processed_success hst hs, fun hs => ?_⟩
    have hstate := @finish_task_state_failure env now st url
      (item.title.getD "未知标题") item.filename task hs
    rw [hstate]
    exact ⟨rfl, rfl, ha,
      fun env2 now2 acc item2 task2 h2f h2u hne hnorec hcache2 hst2 =>
        proc_step_retry h2f h2u hne hnorec ha hcache2 hst2⟩

/-- Witness for the amended C2: the record is written after a successful
send for a task found in the active map (u2) and for a task found only in
the download cache (u3); after a failed send for u2 the caches are
unchanged and a second processing at t=20 dispatches another ordinary
attempt to bob. -/
theorem claim_c2_witness :
    cacheGet (process_completed_download envT 15 stB itemB).1.processed_cache 15
        ("processed_" ++ "u2") =
      some (ProcessedRecord.taskRecord 15 "T2" (some "b.mp4") "bob") ∧
    cacheGet (process_completed_download envT 10 stE itemE).1.processed_cache 10
        ("processed_" ++ "u3") =
      some (ProcessedRecord.taskRecord 10 "T3" none "erin") ∧
    (process_completed_download envF 15 stB itemB).1.processed_cache =
      stB.processed_cache ∧
    (proc_step envF 20 ((process_completed_download envF 15 stB itemB).1, [])
        itemB).2 =
      [Attempt.ordinary "u2" "bob" false] :=
  ⟨(claim_c2_dedup_on_success_only envT 15 stB itemB (newDownloadTask 0 "u2" "bob" "t2")
      "u2" rfl (Or.inl (by decide)) (by decide)).1 rfl,
   (claim_c2_dedup_on_success_only envT 10 stE itemE (newDownloadTask 0 "u3" "erin" "t3")
      "u3" rfl (Or.inr ⟨rfl, by decide⟩) (by decide)).1 rfl,
   ((claim_c2_dedup_on_success_only envF 15 stB itemB (newDownloadTask 0 "u2" "bob" "t2")
      "u2" rfl (Or.inl (by decide)) (by decide)).2 rfl).1,
   ((claim_c2_dedup_on_success_only envF 15 stB itemB (newDownloadTask 0 "u2" "bob" "t2")
      "u2" rfl (Or.inl (by decide)) (by decide)).2 rfl).2.2.2 envF 20 [] itemB
     (newDownloadTask 0 "u2" "bob" "t2") rfl rfl (by decide) rfl (by decide) (by decide)⟩

/-- Claim C8: when the orphan handler processes an entry with no prior
orphan DedupRecord, it writes an orphan record at the end regardless of
the attempt outcomes (the environment, hence every send result, is
arbitrary), and any later orphan handling of the same url within the 7-day
retention window is skipped with no state change and no attempts. -/
theorem claim_c8_orphan_record_regardless (env env2 : Env) (now now2 : Nat)
    (st : MonitorState) (item item2 : DoneItem)
    (hno : cacheGet st.processed_cache now ("orphan_" ++ item.url.getD "") = none) :
    (∃ r, cacheGet (handle_orphan_download env now st item).1.processed_cache now
        ("orphan_" ++ item.url.getD "") = some r) ∧
    (item2.url = item.url → now2 < now + 604800 →
      handle_orphan_download env2 now2 (handle_orphan_download env now st item).1 item2 =
        ((handle_orphan_download env now st item).1, [])) := by
  obtain ⟨b, hw⟩ := @handle_orphan_download_writes env now st item hno
  constructor
  · exact ⟨ProcessedRecord.orphanRecord now (item.title.getD "未知标题") item.filename
      (build_download_url env item.filename) b,
      by rw [hw, cacheGet_cacheSet_self, if_pos (by omega)]⟩
  · intro hu h2
    apply handle_orphan_download_skip
    rw [hu, hw, cacheGet_cacheSet_self, if_pos h2]
    rfl

/-- Witness for C8: a concrete orphan entry is recorded on the first
handling (with a failing sender) and skipped on a later tick. -/
theorem claim_c8_witness :
    (∃ r, cacheGet (handle_orphan_download envF 10 initialState itemO).1.processed_cache 10
        ("orphan_" ++ itemO.url.getD "") = some r) ∧
    handle_orphan_download envT 20 (handle_orphan_download envF 10 initialState itemO).1
        itemO =
      ((handle_orphan_download envF 10 initialState itemO).1, []) :=
  ⟨(claim_c8_orphan_record_regardless envF envT 10 20 initialState itemO itemO rfl).1,
   (claim_c8_orphan_record_regardless envF envT 10 20 initialState itemO itemO rfl).2
     rfl (by omega)⟩

/-- Claim C10: a registered task is written to the 24h download cache at
registration time, and a finished entry whose key misses the active map
but hits the download cache is handled on the ordinary path, notifying
the cached owner, and is never delegated to the orphan handler. -/
theorem claim_c10_cached_task_path (st : MonitorState) (now now2 : Nat)
    (url user_id title : String) (env : Env) (item : DoneItem) (task : DownloadTask) :
    (now2 < now + 86400 →
      cacheGet (add_active_task st now url user_id title).download_cache now2 url =
        some (newDownloadTask now url user_id title)) ∧
    (item.url = some url →
      alookup st.active_tasks url = none →
      cacheGet st.download_cache now url = some task →
      (process_completed_download env now st item).2.2 = false ∧
      (¬task.status = "completed" →
        (process_completed_download env now st item).2.1 =
          [Attempt.ordinary url task.user_id
            (env.send_text_message (completionText (item.title.getD "未知标题")
              item.filename (build_download_url env item.filename)) task.user_id)])) := by
  constructor
  · intro h2
    simp only [add_active_task]
    rw [cacheGet_cacheSet_self, if_pos h2]
  · intro hurl hactive hcache
    rw [process_completed_download_cached hurl hactive hcache]
    exact ⟨finish_task_not_orphan, fun hc => finish_task_not_completed_attempts hc⟩

/-- Witness for C10: registration writes the cache; a cache-only task for
u3 is notified as an ordinary completion to its owner erin. -/
theorem claim_c10_witness :
    cacheGet (add_active_task initialState 0 "u1" "alice" "t1").download_cache 5 "u1" =
      some (newDownloadTask 0 "u1" "alice" "t1") ∧
    (process_completed_download envT 10 stE itemE).2.2 = false ∧
    (process_completed_download envT 10 stE itemE).2.1 =
      [Attempt.ordinary "u3" "erin" true] := by
  refine ⟨?_, ?_⟩
  · exact (claim_c10_cached_task_path initialState 0 5 "u1" "alice" "t1" envT itemE
      (newDownloadTask 0 "u3" "erin" "t3")).1 (by omega)
  · have h := (claim_c10_cached_task_path stE 10 0 "u3" "x" "x" envT itemE
      (newDownloadTask 0 "u3" "erin" "t3")).2 rfl rfl (by decide)
    exact ⟨h.1, h.2 (by decide)⟩

/-- Claim C6: orphan isolation.  A finished entry with no task record at
all (neither in the active map nor live in the download cache) goes to
the orphan path and emits no ordinary-task attempt; an entry with a task
record never reaches the orphan handler; the two dedup namespaces use
provably distinct keys, and neither handler's record write is visible to
the other namespace's reads. -/
theorem claim_c6_orphan_isolation :
    (∀ (env : Env) (now : Nat) (st : MonitorState) (item : DoneItem) (url : String),
      item.url = some url →
      alookup st.active_tasks url = none →
      cacheGet st.download_cache now url = none →
      (process_completed_download env now st item).2.2 = true ∧
      ∀ a ∈ (process_completed_download env now st item).2.1, isOrdinary a = false) ∧
    (∀ (env : Env) (now : Nat) (st : MonitorState) (item : DoneItem) (url : String)
      (task : DownloadTask),
      item.url = some url →
      (alookup st.active_tasks url = some task ∨
        (alookup st.active_tasks url = none ∧
          cacheGet st.download_cache now url = some task)) →
      (process_completed_download env now st item).2.2 = false) ∧
    (∀ u v : String, ("orphan_" ++ u : String) ≠ ("processed_" ++ v : String)) ∧
    (∀ (env : Env) (now now2 : Nat) (st : MonitorState) (item : DoneItem) (u : String),
      cacheGet (handle_orphan_download env now st item).1.processed_cache now2
          ("processed_" ++ u) = cacheGet st.processed_cache now2 ("processed_" ++ u)) ∧
    (∀ (env : Env) (now now2 : Nat) (st : MonitorState) (url title : String)
      (filename : Option String) (task : DownloadTask) (u : String),
      cacheGet (finish_task env now st url title filename task).1.processed_cache now2
          ("orphan_" ++ u) = cacheGet st.processed_cache now2 ("orphan_" ++ u)) := by
  refine ⟨?_, ?_, orphan_key_ne_processed_key, ?_, ?_⟩
  · intro env now st item url hurl ha hc
    rw [process_completed_download_orphan hurl ha hc]
    refine ⟨rfl, ?_⟩
    intro a haa
    exact (handle_orphan_download_attempts a haa).2
  · intro env now st item url task hurl hfound
    rcases hfound with hf | ⟨ha, hc⟩
    · rw [process_completed_download_active hurl hf]
      exact finish_task_not_orphan
    · rw [process_completed_download_cached hurl ha hc]
      exact finish_task_not_orphan
  · intro env now now2 st item u
    exact handle_orphan_download_processed_read_unchanged u
  · intro env now now2 st url title filename task u
    exact finish_task_orphan_read_unchanged u

/-- Witness for C6: the unregistered url v9 goes to the orphan path with
no ordinary attempt; the registered url u2 never reaches the orphan
handler. -/
theorem claim_c6_witness :
    ((process_completed_download envT 5 initialState itemO).2.2 = true ∧
      ∀ a ∈ (process_completed_download envT 5 initialState itemO).2.1,
        isOrdinary a = false) ∧
    (process_completed_download envT 15 stB itemB).2.2 = false :=
  ⟨claim_c6_orphan_isolation.1 envT 5 initialState itemO "v9" rfl rfl rfl,
   claim_c6_orphan_isolation.2.1 envT 15 stB itemB "u2" (newDownloadTask 0 "u2" "bob" "t2")
     rfl (Or.inl (by decide))⟩

/-! ### Expiry and attempt-provenance lemmas -/

theorem next_interval_expired_of_ge (s : Int) (h : s ≥ 259200) :
    next_interval_of_seconds s = -1 := by
  rw [next_interval_of_seconds, if_neg (by omega), if_neg (by omega), if_neg (by omega),
    if_neg (by omega), if_neg (by omega)]

theorem check_one_active_expired {now : Nat} {queue : List String} {url : String}
    {task : DownloadTask} (hdue : dueAt now task = true)
    (hexp : next_interval_of_seconds ((now : Int) - (task.submit_time : Int)) = -1) :
    check_one_active now queue url task = none := by
  have hcd : check_due now queue url task = none := by
    simp only [check_due]
    rw [if_pos hexp]
  cases hl : task.last_check_time with
  | none => simp only [check_one_active, hl]; exact hcd
  | some lct =>
    rw [dueAt, hl] at hdue
    simp only [Bool.not_eq_true', decide_eq_false_iff_not] at hdue
    simp only [check_one_active, hl]
    rw [if_neg hdue]
    exact hcd

theorem alookup_check_active_tasks_gone {now : Nat} {queue : List String}
    {tasks : List (String × DownloadTask)} {k : String} {task : DownloadTask}
    (hnd : (tasks.map Prod.fst).Nodup) (hfind : alookup tasks k = some task)
    (hgone : check_one_active now queue k task = none) :
    alookup (check_active_tasks now queue tasks) k = none := by
  induction tasks with
  | nil => simp [alookup] at hfind
  | cons hd tl ih =>
    obtain ⟨a, b⟩ := hd
    rw [List.map_cons, List.nodup_cons] at hnd
    rw [alookup] at hfind
    rw [check_active_tasks, List.filterMap]
    by_cases hak : a = k
    · rw [if_pos hak] at hfind
      obtain rfl : b = task := Option.some.inj hfind
      subst hak
      rw [hgone]
      exact alookup_check_active_tasks_none (alookup_none_of_not_mem_keys hnd.1)
    · rw [if_neg hak] at hfind
      cases check_one_active now queue a b with
      | none => exact ih hnd.2 hfind
      | some t => rw [Option.map, alookup, if_neg hak]; exact ih hnd.2 hfind

theorem finish_task_attempt_url {env : Env} {now : Nat} {st : MonitorState}
    {url title : String} {filename : Option String} {task : DownloadTask} :
    ∀ a ∈ (finish_task env now st url title filename task).2.1, attemptUrl a = url := by
  intro a ha
  by_cases h : task.status = "completed"
  · rw [finish_task_completed h] at ha
    simp at ha
  · rw [finish_task_not_completed_attempts h] at ha
    simp at ha
    subst ha
    rfl

theorem process_completed_download_attempt_url {env : Env} {now : Nat}
    {st : MonitorState} {item : DoneItem} :
    ∀ a ∈ (process_completed_download env now st item).2.1,
      attemptUrl a = item.url.getD "" := by
  intro a ha
  rw [process_completed_download] at ha
  cases hl : alookup st.active_tasks (item.url.getD "") with
  | some task =>
    simp only [hl] at ha
    exact finish_task_attempt_url a ha
  | none =>
    simp only [hl] at ha
    cases hc : cacheGet st.download_cache now (item.url.getD "") with
    | some task =>
      simp only [hc] at ha
      exact finish_task_attempt_url a ha
    | none =>
      simp only [hc] at ha
      exact (handle_orphan_download_attempts a ha).1

theorem proc_step_no_attempt_for {env : Env} {now : Nat}
    {acc : MonitorState × List Attempt} {item : DoneItem} (k : String)
    (hitem : item.url ≠ some k)
    (hacc : ∀ a ∈ acc.2, attemptUrl a ≠ k) :
    ∀ a ∈ (proc_step env now acc item).2, attemptUrl a ≠ k := by
  intro a ha
  rw [proc_step] at ha
  split at ha
  · exact hacc a ha
  · cases hu : item.url with
    | none => simp only [hu] at ha; exact hacc a ha
    | some u =>
      simp only [hu] at ha
      split at ha
      · exact hacc a ha
      · split at ha
        · exact hacc a ha
        · simp only [List.mem_append] at ha
          rcases ha with h | h
          · exact hacc a h
          · have hau := process_completed_download_attempt_url a h
            rw [hu] at hau
            simp at hau
            rw [hau]
            intro hk
            exact hitem (by rw [hu, hk])

theorem pcds_no_attempt_for {env : Env} {now : Nat} (k : String) :
    ∀ (l : List DoneItem) (acc : MonitorState × List Attempt),
      (∀ item ∈ l, item.url ≠ some k) →
      (∀ a ∈ acc.2, attemptUrl a ≠ k) →
      ∀ a ∈ (l.foldl (proc_step env now) acc).2, attemptUrl a ≠ k := by
  intro l
  induction l with
  | nil => intro acc _ hacc; exact hacc
  | cons hd tl ih =>
    intro acc hl hacc
    rw [List.foldl_cons]
    exact ih _ (fun item hm => hl item (List.mem_cons_of_mem hd hm))
      (proc_step_no_attempt_for k (hl hd (List.mem_cons_self hd tl)) hacc)

theorem check_downloads_unfold (env : Env) (now : Nat) (snap : Snapshot)
    (st : MonitorState) :
    check_downloads env now true snap st =
      process_completed_downloads env now
        { st with active_tasks := check_active_tasks now snap.queue st.active_tasks }
        snap.done := rfl

theorem check_downloads_no_attempt_for {env : Env} {now : Nat} {snap : Snapshot}
    {st : MonitorState} (k : String)
    (hsnap : ∀ item ∈ snap.done, item.url ≠ some k) :
    ∀ a ∈ (check_downloads env now true snap st).2, attemptUrl a ≠ k := by
  rw [check_downloads_unfold, process_completed_downloads]
  exact pcds_no_attempt_for k snap.done _ hsnap (by intro a ha; simp at ha)

theorem runTicks_no_attempt_for {env : Env} (k : String) :
    ∀ (ticks : List Tick) (st : MonitorState),
      (∀ t ∈ ticks, ∀ item ∈ t.snap.done, item.url ≠ some k) →
      ∀ a ∈ (runTicks env st ticks).2, attemptUrl a ≠ k := by
  intro ticks
  induction ticks with
  | nil => intro st _ a ha; simp [runTicks] at ha
  | cons t ts ih =>
    intro st h a ha
    simp only [runTicks, List.mem_append] at ha
    rcases ha with h1 | h2
    · exact check_downloads_no_attempt_for k
        (h t (List.mem_cons_self t ts)) a h1
    · exact ih _ (fun t2 hm => h t2 (List.mem_cons_of_mem t hm)) a h2

/-! ### Active-map absence is preserved by every step -/

theorem alookup_aremove_none {α : Type} {l : List (String × α)} {k : String}
    (u : String) (h : alookup l k = none) : alookup (aremove l u) k = none := by
  by_cases hku : k = u
  · subst hku; exact alookup_aremove_self l k
  · rw [alookup_aremove_ne l hku]; exact h

theorem process_completed_download_active_none {env : Env} {now : Nat}
    {st : MonitorState} {item : DoneItem} {k : String}
    (h : alookup st.active_tasks k = none) :
    alookup (process_completed_download env now st item).1.active_tasks k = none := by
  rw [process_completed_download]
  cases hl : alookup st.active_tasks (item.url.getD "") with
  | some task =>
    simp only [hl]
    rw [finish_task_active_unchanged]
    exact alookup_aremove_none _ h
  | none =>
    simp only [hl]
    cases hc : cacheGet st.download_cache now (item.url.getD "") with
    | some task =>
      simp only [hc]
      rw [finish_task_active_unchanged]
      exact h
    | none =>
      simp only [hc]
      rw [show (((handle_orphan_download env now st item).1,
        (handle_orphan_download env now st item).2, true) :
          MonitorState × List Attempt × Bool).1 =
        (handle_orphan_download env now st item).1 from rfl]
      rw [handle_orphan_download_active_unchanged]
      exact h

theorem proc_step_active_none {env : Env} {now : Nat}
    {acc : MonitorState × List Attempt} {item : DoneItem} (k : String)
    (h : alookup acc.1.active_tasks k = none) :
    alookup (proc_step env now acc item).1.active_tasks k = none := by
  rw [proc_step]
  split
  · exact h
  · cases hu : item.url with
    | none => simp only [hu]; exact h
    | some u =>
      simp only [hu]
      split
      · exact h
      · split
        · exact h
        · exact process_completed_download_active_none h

theorem pcds_active_none {env : Env} {now : Nat} (k : String) :
    ∀ (l : List DoneItem) (acc : MonitorState × List Attempt),
      alookup acc.1.active_tasks k = none →
      alookup (l.foldl (proc_step env now) acc).1.active_tasks k = none := by
  intro l
  induction l with
  | nil => intro acc h; exact h
  | cons hd tl ih =>
    intro acc h
    rw [List.foldl_cons]
    exact ih _ (proc_step_active_none k h)

theorem check_downloads_active_none {env : Env} {now : Nat} {snap : Snapshot}
    {st : MonitorState} (k : String) (h : alookup st.active_tasks k = none) :
    alookup (check_downloads env now true snap st).1.active_tasks k = none := by
  rw [check_downloads_unfold, process_completed_downloads]
  exact pcds_active_none k snap.done _ (alookup_check_active_tasks_none h)

theorem runTicks_active_none {env : Env} (k : String) :
    ∀ (ticks : List Tick) (st : MonitorState),
      alookup st.active_tasks k = none →
      alookup (runTicks env st ticks).1.active_tasks k = none := by
  intro ticks
  induction ticks with
  | nil => intro st h; exact h
  | cons t ts ih =>
    intro st h
    simp only [runTicks]
    exact ih _ (check_downloads_active_none k h)

theorem check_downloads_expired_removed {env : Env} {now : Nat} {snap : Snapshot}
    {st : MonitorState} {k : String} {task : DownloadTask}
    (hnd : (st.active_tasks.map Prod.fst).Nodup)
    (hfind : alookup st.active_tasks k = some task)
    (hdue : dueAt now task = true)
    (hexp : (now : Int) - (task.submit_time : Int) ≥ 259200) :
    alookup (check_downloads env now true snap st).1.active_tasks k = none := by
  rw [check_downloads_unfold, process_completed_downloads]
  exact pcds_active_none k snap.done _
    (alookup_check_active_tasks_gone hnd hfind
      (check_one_active_expired hdue (next_interval_expired_of_ge _ hexp)))

/-- Counterexample to claim C7: a task registered at t=0 that never
appears in a finished snapshot is removed from the registry already at the
first due evaluation at t=15 (its key being absent from the queue), far
before the claimed removal point after T+72h (259200 s). -/
theorem claim_c7_counterexample :
    (alookup stC.active_tasks "v2").isSome = true ∧
    alookup (check_downloads envF 15 true { queue := [], done := [] } stC).1.active_tasks
      "v2" = none ∧
    (15 : Nat) < 259200 := by
  refine ⟨by decide, by decide, by decide⟩

/-- Claim C7 as amended: for a key that never appears among the finished
entries, no notification attempt is ever dispatched for it; a tracked task
that comes due at or after 72h of elapsed time is removed by that scan
(whatever the queue contains); and once absent from the registry the key
stays absent for the rest of the run. -/
theorem claim_c7_expiry_silence (env : Env) (st : MonitorState) (ticks : List Tick)
    (k : String) (now : Nat) (snap : Snapshot) (task : DownloadTask) :
    ((∀ t ∈ ticks, ∀ item ∈ t.snap.done, item.url ≠ some k) →
      ∀ a ∈ (runTicks env st ticks).2, attemptUrl a ≠ k) ∧
    ((st.active_tasks.map Prod.fst).Nodup →
      alookup st.active_tasks k = some task →
      dueAt now task = true →
      (now : Int) - (task.submit_time : Int) ≥ 259200 →
      alookup (check_downloads env now true snap st).1.active_tasks k = none) ∧
    (alookup st.active_tasks k = none →
      alookup (runTicks env st ticks).1.active_tasks k = none) :=
  ⟨fun h => runTicks_no_attempt_for k ticks st h,
   fun hnd hf hd he => check_downloads_expired_removed hnd hf hd he,
   fun h => runTicks_active_none k ticks st h⟩

/-- Witness for the amended C7: a run whose snapshots never report v2
finished dispatches no attempt for v2; the v2 task, due at t=259200, is
removed by that scan even though v2 is still queued; absence persists. -/
theorem claim_c7_witness :
    (∀ a ∈ (runTicks envF stC [tickD1]).2, attemptUrl a ≠ "v2") ∧
    alookup (check_downloads envF 259200 true { queue := ["v2"], done := [] }
      stC).1.active_tasks "v2" = none ∧
    alookup (runTicks envF initialState [tickD1]).1.active_tasks "v2" = none := by
  refine ⟨?_, ?_, ?_⟩
  · exact (claim_c7_expiry_silence envF stC [tickD1] "v2" 0 ⟨[], []⟩ taskV).1 (by decide)
  · exact (claim_c7_expiry_silence envF stC [] "v2" 259200
      { queue := ["v2"], done := [] } (newDownloadTask 0 "v2" "bob" "t")).2.1
      (by decide) (by decide) (by decide) (by decide)
  · exact (claim_c7_expiry_silence envF initialState [tickD1] "v2" 0 ⟨[], []⟩
      taskV).2.2 rfl

/-! ### Lemmas about the attempt-list predicates -/

theorem isOrdinaryFor_of_success {k : String} {a : Attempt}
    (h : isOrdinarySuccessFor k a = true) : isOrdinaryFor k a = true := by
  cases a with
  | ordinary u r s =>
    simp only [isOrdinarySuccessFor, Bool.and_eq_true] at h
    simp only [isOrdinaryFor]
    exact h.1
  | orphanPrimary u r s => simp [isOrdinarySuccessFor] at h
  | orphanFallback u r s => simp [isOrdinarySuccessFor] at h

theorem noOrd_hasOrd_false {k : String} {l : List Attempt}
    (h : noOrdinaryFor k l = true) : hasOrdinarySuccessFor k l = false := by
  rw [noOrdinaryFor, List.all_eq_true] at h
  rw [hasOrdinarySuccessFor]
  by_contra hc
  rw [Bool.not_eq_false, List.any_eq_true] at hc
  obtain ⟨a, ha, hs⟩ := hc
  have h2 := h a ha
  rw [isOrdinaryFor_of_success hs] at h2
  simp at h2

theorem amoos_of_hasOrd_false {k : String} {l : List Attempt}
    (h : hasOrdinarySuccessFor k l = false) : atMostOnceFor k l = true := by
  induction l with
  | nil => rfl
  | cons a rest ih =>
    rw [hasOrdinarySuccessFor, List.any_cons, Bool.or_eq_false_iff] at h
    rw [atMostOnceFor, if_neg (by simp [h.1])]
    exact ih h.2

theorem noOrd_append {k : String} {l1 l2 : List Attempt}
    (h1 : noOrdinaryFor k l1 = true) (h2 : noOrdinaryFor k l2 = true) :
    noOrdinaryFor k (l1 ++ l2) = true := by
  rw [noOrdinaryFor, List.all_append]
  rw [noOrdinaryFor] at h1 h2
  rw [h1, h2]
  rfl

theorem amoos_append_noOrd {k : String} {l1 l2 : List Attempt}
    (h1 : atMostOnceFor k l1 = true) (h2 : noOrdinaryFor k l2 = true) :
    atMostOnceFor k (l1 ++ l2) = true := by
  induction l1 with
  | nil => exact amoos_of_hasOrd_false (noOrd_hasOrd_false h2)
  | cons a rest ih =>
    rw [atMostOnceFor] at h1
    rw [List.cons_append, atMostOnceFor]
    by_cases hs : isOrdinarySuccessFor k a = true
    · rw [if_pos hs] at h1
      rw [if_pos hs]
      exact noOrd_append h1 h2
    · rw [if_neg hs] at h1
      rw [if_neg hs]
      exact ih h1

theorem amoos_append_left_nosucc {k : String} {l1 l2 : List Attempt}
    (h1 : hasOrdinarySuccessFor k l1 = false) (h2 : atMostOnceFor k l2 = true) :
    atMostOnceFor k (l1 ++ l2) = true := by
  induction l1 with
  | nil => exact h2
  | cons a rest ih =>
    rw [hasOrdinarySuccessFor, List.any_cons, Bool.or_eq_false_iff] at h1
    rw [List.cons_append, atMostOnceFor, if_neg (by simp [h1.1])]
    exact ih h1.2

theorem hasOrd_append {k : String} {l1 l2 : List Attempt} :
    hasOrdinarySuccessFor k (l1 ++ l2) =
      (hasOrdinarySuccessFor k l1 || hasOrdinarySuccessFor k l2) := by
  simp [hasOrdinarySuccessFor, List.any_append]

theorem amoos_singleton {k : String} {a : Attempt} : atMostOnceFor k [a] = true := by
  rw [atMostOnceFor]
  split
  · rfl
  · rfl

/-! ### Safety of a key after its successful notification -/

theorem finish_task_dc_failure {env : Env} {now : Nat} {st : MonitorState}
    {url title : String} {filename : Option String} {task : DownloadTask}
    (hs : env.send_text_message (completionText title filename
      (build_download_url env filename)) task.user_id = false) :
    (finish_task env now st url title filename task).1.download_cache =
      st.download_cache := by
  rw [finish_task]
  split
  · rfl
  · simp [hs]

theorem finish_task_dc_success {env : Env} {now : Nat} {st : MonitorState}
    {url title : String} {filename : Option String} {task : DownloadTask}
    (h : ¬task.status = "completed")
    (hs : env.send_text_message (completionText title filename
      (build_download_url env filename)) task.user_id = true) :
    (finish_task env now st url title filename task).1.download_cache =
      cacheSet st.download_cache url
        { task with
            status := "completed"
            filename := filename
            download_url := some (build_download_url env filename) } (now + 86400) := by
  rw [finish_task, if_neg h]
  simp only [hs, if_true]

theorem finish_task_safe_after_success {env : Env} {now : Nat} {st : MonitorState}
    {url title : String} {filename : Option String} {task : DownloadTask}
    (hactive : alookup st.active_tasks url = none)
    (h : ¬task.status = "completed")
    (hs : env.send_text_message (completionText title filename
      (build_download_url env filename)) task.user_id = true) :
    SafeState url (finish_task env now st url title filename task).1 := by
  constructor
  · rw [finish_task_active_unchanged]
    exact hactive
  · intro e he
    rw [finish_task_dc_success h hs, cacheSet] at he
    rw [if_pos rfl] at he
    obtain rfl := Option.some.inj he
    rfl

theorem finish_task_safe_other {env : Env} {now : Nat} {st : MonitorState}
    {u title : String} {filename : Option String} {task : DownloadTask} {k : String}
    (hku : k ≠ u) (hsafe : SafeState k st) :
    SafeState k (finish_task env now st u title filename task).1 := by
  constructor
  · rw [finish_task_active_unchanged]
    exact hsafe.1
  · intro e he
    by_cases h : task.status = "completed"
    · rw [finish_task_completed h] at he
      exact hsafe.2 e he
    · cases hs : env.send_text_message (completionText title filename
          (build_download_url env filename)) task.user_id
      · rw [finish_task_dc_failure hs] at he
        exact hsafe.2 e he
      · rw [finish_task_dc_success h hs, cacheSet, if_neg hku] at he
        exact hsafe.2 e he

theorem finish_task_noOrd_other {env : Env} {now : Nat} {st : MonitorState}
    {u title : String} {filename : Option String} {task : DownloadTask} {k : String}
    (hku : k ≠ u) :
    noOrdinaryFor k (finish_task env now st u title filename task).2.1 = true := by
  rw [noOrdinaryFor, List.all_eq_true]
  intro a ha
  by_cases h : task.status = "completed"
  · rw [finish_task_completed h] at ha
    simp at ha
  · rw [finish_task_not_completed_attempts h] at ha
    simp at ha
    subst ha
    simp [isOrdinaryFor]
    exact fun hh => hku hh.symm

theorem handle_orphan_safe {env : Env} {now : Nat} {st : MonitorState}
    {item : DoneItem} {k : String} (hsafe : SafeState k st) :
    SafeState k (handle_orphan_download env now st item).1 := by
  constructor
  · rw [handle_orphan_download_active_unchanged]
    exact hsafe.1
  · intro e he
    rw [handle_orphan_download_dc_unchanged] at he
    exact hsafe.2 e he

theorem handle_orphan_noOrd {env : Env} {now : Nat} {st : MonitorState}
    {item : DoneItem} {k : String} :
    noOrdinaryFor k (handle_orphan_download env now st item).2 = true := by
  rw [noOrdinaryFor, List.all_eq_true]
  intro a ha
  have h2 := (handle_orphan_download_attempts a ha).2
  cases a with
  | ordinary u r s => simp [isOrdinary] at h2
  | orphanPrimary u r s => simp [isOrdinaryFor]
  | orphanFallback u r s => simp [isOrdinaryFor]

theorem check_active_tasks_safe {now : Nat} {queue : List String} {st : MonitorState}
    {k : String} (h : SafeState k st) :
    SafeState k { st with active_tasks := check_active_tasks now queue st.active_tasks } :=
  ⟨alookup_check_active_tasks_none h.1, h.2⟩

theorem process_completed_download_safe {env : Env} {now : Nat} {st : MonitorState}
    {item : DoneItem} {k : String} (hsafe : SafeState k st) :
    SafeState k (process_completed_download env now st item).1 ∧
    noOrdinaryFor k (process_completed_download env now st item).2.1 = true := by
  rw [process_completed_download]
  cases hl : alookup st.active_tasks (item.url.getD "") with
  | some task =>
    simp only [hl]
    have hku : k ≠ item.url.getD "" := by
      intro hk
      rw [← hk] at hl
      rw [hsafe.1] at hl
      exact Option.noConfusion hl
    exact ⟨finish_task_safe_other hku ⟨alookup_aremove_none _ hsafe.1, hsafe.2⟩,
           finish_task_noOrd_other hku⟩
  | none =>
    simp only [hl]
    cases hc : cacheGet st.download_cache now (item.url.getD "") with
    | some task =>
      simp only [hc]
      by_cases hke : k = item.url.getD ""
      · have hcomp : task.status = "completed" := by
          rw [← hke] at hc
          simp only [cacheGet] at hc
          cases hdc : st.download_cache k with
          | none =>
            simp only [hdc] at hc
            exact Option.noConfusion hc
          | some e =>
            simp only [hdc] at hc
            split at hc
            · have hev := Option.some.inj hc
              rw [← hev]
              exact hsafe.2 e hdc
            · exact Option.noConfusion hc
        rw [finish_task_completed hcomp]
        exact ⟨hsafe, rfl⟩
      · exact ⟨finish_task_safe_other hke hsafe, finish_task_noOrd_other hke⟩
    | none =>
      simp only [hc]
      exact ⟨handle_orphan_safe hsafe, handle_orphan_noOrd⟩

theorem process_completed_download_amoos_safe {env : Env} {now : Nat}
    {st : MonitorState} {item : DoneItem} {k : String} :
    atMostOnceFor k (process_completed_download env now st item).2.1 = true ∧
    (hasOrdinarySuccessFor k (process_completed_download env now st item).2.1 = true →
      SafeState k (process_completed_download env now st item).1) := by
  have finish_case : ∀ (st2 : MonitorState) (u : String),
      (u = k → alookup st2.active_tasks u = none) →
      ∀ (title : String) (filename : Option String) (task : DownloadTask),
      atMostOnceFor k (finish_task env now st2 u title filename task).2.1 = true ∧
      (hasOrdinarySuccessFor k (finish_task env now st2 u title filename task).2.1 =
          true →
        SafeState k (finish_task env now st2 u title filename task).1) := by
    intro st2 u hactive title filename task
    by_cases hcmp : task.status = "completed"
    · rw [finish_task_completed hcmp]
      exact ⟨rfl, by intro h; simp [hasOrdinarySuccessFor] at h⟩
    · constructor
      · rw [finish_task_not_completed_attempts hcmp]
        exact amoos_singleton
      · intro hso
        rw [finish_task_not_completed_attempts hcmp] at hso
        rw [hasOrdinarySuccessFor] at hso
        simp [isOrdinarySuccessFor] at hso
        obtain ⟨huk, hsend⟩ := hso
        have hk := hactive huk
        rw [← huk]
        exact finish_task_safe_after_success hk hcmp hsend
  rw [process_completed_download]
  cases hl : alookup st.active_tasks (item.url.getD "") with
  | some task =>
    simp only [hl]
    exact finish_case _ _ (fun _ => alookup_aremove_self _ _) _ _ _
  | none =>
    simp only [hl]
    cases hc : cacheGet st.download_cache now (item.url.getD "") with
    | some task =>
      simp only [hc]
      exact finish_case _ _ (fun _ => hl) _ _ _
    | none =>
      simp only [hc]
      constructor
      · exact amoos_of_hasOrd_false (noOrd_hasOrd_false handle_orphan_noOrd)
      · intro h
        rw [noOrd_hasOrd_false handle_orphan_noOrd] at h
        exact Bool.noConfusion h

theorem proc_step_safe {env : Env} {now : Nat} {acc : MonitorState × List Attempt}
    {item : DoneItem} {k : String} (hsafe : SafeState k acc.1)
    (hacc : noOrdinaryFor k acc.2 = true) :
    SafeState k (proc_step env now acc item).1 ∧
    noOrdinaryFor k (proc_step env now acc item).2 = true := by
  rw [proc_step]
  split
  · exact ⟨hsafe, hacc⟩
  · cases hu : item.url with
    | none => simp only [hu]; exact ⟨hsafe, hacc⟩
    | some u =>
      simp only [hu]
      split
      · exact ⟨hsafe, hacc⟩
      · split
        · exact ⟨hsafe, hacc⟩
        · have h := @process_completed_download_safe env now acc.1 item k hsafe
          exact ⟨h.1, noOrd_append hacc h.2⟩

theorem proc_step_inv {env : Env} {now : Nat} {acc : MonitorState × List Attempt}
    {item : DoneItem} {k : String}
    (h1 : atMostOnceFor k acc.2 = true)
    (h2 : hasOrdinarySuccessFor k acc.2 = true → SafeState k acc.1) :
    atMostOnceFor k (proc_step env now acc item).2 = true ∧
    (hasOrdinarySuccessFor k (proc_step env now acc item).2 = true →
      SafeState k (proc_step env now acc item).1) := by
  rw [proc_step]
  split
  · exact ⟨h1, h2⟩
  · cases hu : item.url with
    | none => simp only [hu]; exact ⟨h1, h2⟩
    | some u =>
      simp only [hu]
      split
      · exact ⟨h1, h2⟩
      · split
        · exact ⟨h1, h2⟩
        · have hpcd := @process_completed_download_amoos_safe env now acc.1 item k
          by_cases hso : hasOrdinarySuccessFor k acc.2 = true
          · have hps := @process_completed_download_safe env now acc.1 item k (h2 hso)
            exact ⟨amoos_append_noOrd h1 hps.2, fun _ => hps.1⟩
          · have hso2 : hasOrdinarySuccessFor k acc.2 = false := by
              simpa using hso
            constructor
            · exact amoos_append_left_nosucc hso2 hpcd.1
            · intro habs
              rw [hasOrd_append, hso2, Bool.false_or] at habs
              exact hpcd.2 habs

theorem pcds_inv {env : Env} {now : Nat} {k : String} :
    ∀ (l : List DoneItem) (acc : MonitorState × List Attempt),
      atMostOnceFor k acc.2 = true →
      (hasOrdinarySuccessFor k acc.2 = true → SafeState k acc.1) →
      atMostOnceFor k (l.foldl (proc_step env now) acc).2 = true ∧
      (hasOrdinarySuccessFor k (l.foldl (proc_step env now) acc).2 = true →
        SafeState k (l.foldl (proc_step env now) acc).1) := by
  intro l
  induction l with
  | nil => intro acc h1 h2; exact ⟨h1, h2⟩
  | cons hd tl ih =>
    intro acc h1 h2
    rw [List.foldl_cons]
    have h := @proc_step_inv env now acc hd k h1 h2
    exact ih _ h.1 h.2

theorem pcds_safe {env : Env} {now : Nat} {k : String} :
    ∀ (l : List DoneItem) (acc : MonitorState × List Attempt),
      SafeState k acc.1 → noOrdinaryFor k acc.2 = true →
      SafeState k (l.foldl (proc_step env now) acc).1 ∧
      noOrdinaryFor k (l.foldl (proc_step env now) acc).2 = true := by
  intro l
  induction l with
  | nil => intro acc h1 h2; exact ⟨h1, h2⟩
  | cons hd tl ih =>
    intro acc h1 h2
    rw [List.foldl_cons]
    have h := @proc_step_safe env now acc hd k h1 h2
    exact ih _ h.1 h.2

theorem check_downloads_inv {env : Env} {now : Nat} {snap : Snapshot}
    {st : MonitorState} {k : String} :
    atMostOnceFor k (check_downloads env now true snap st).2 = true ∧
    (hasOrdinarySuccessFor k (check_downloads env now true snap st).2 = true →
      SafeState k (check_downloads env now true snap st).1) := by
  rw [check_downloads_unfold, process_completed_downloads]
  exact pcds_inv snap.done _ rfl (by intro h; simp [hasOrdinarySuccessFor] at h)

theorem check_downloads_safe {env : Env} {now : Nat} {snap : Snapshot}
    {st : MonitorState} {k : String} (hsafe : SafeState k st) :
    SafeState k (check_downloads env now true snap st).1 ∧
    noOrdinaryFor k (check_downloads env now true snap st).2 = true := by
  rw [check_downloads_unfold, process_completed_downloads]
  exact pcds_safe snap.done _ (check_active_tasks_safe hsafe) rfl

theorem runTicks_safe {env : Env} {k : String} :
    ∀ (ticks : List Tick) (st : MonitorState), SafeState k st →
      SafeState k (runTicks env st ticks).1 ∧
      noOrdinaryFor k (runTicks env st ticks).2 = true := by
  intro ticks
  induction ticks with
  | nil => intro st h; exact ⟨h, rfl⟩
  | cons t ts ih =>
    intro st h
    simp only [runTicks]
    obtain ⟨hs1, hn1⟩ := @check_downloads_safe env t.now t.snap st k h
    obtain ⟨hs2, hn2⟩ := ih _ hs1
    exact ⟨hs2, noOrd_append hn1 hn2⟩

/-- Counterexample to claim C1: with a sender that keeps failing, two scan
ticks whose snapshots both report v1 finished dispatch two ordinary
notification attempts for v1, not exactly one (the failed first attempt is
retried because no DedupRecord was written). -/
theorem claim_c1_counterexample :
    ((runTicks envF stD [tickD1, tickD2]).2.filter (isOrdinaryFor "v1")).length = 2 := by
  decide

/-- Claim C1 as amended: across any run of scan ticks, once a successful
ordinary notification has been dispatched for a key, no further ordinary
attempt (successful or failed) is dispatched for that key — in particular
at most one successful notification per key per run; failed attempts,
however, may recur on later ticks. -/
theorem claim_c1_at_most_one_success (env : Env) (st : MonitorState)
    (ticks : List Tick) (k : String) :
    atMostOnceFor k (runTicks env st ticks).2 = true := by
  induction ticks generalizing st with
  | nil => rfl
  | cons t ts ih =>
    simp only [runTicks]
    obtain ⟨ha, hs⟩ := @check_downloads_inv env t.now t.snap st k
    by_cases hso :
      hasOrdinarySuccessFor k (check_downloads env t.now true t.snap st).2 = true
    · obtain ⟨hs2, hn2⟩ := runTicks_safe ts _ (hs hso)
      exact amoos_append_noOrd ha hn2
    · have hso2 :
          hasOrdinarySuccessFor k (check_downloads env t.now true t.snap st).2 = false :=
        by simpa using hso
      exact amoos_append_left_nosucc hso2 (ih _)

end WxMetube
